import Mathlib

/-!
# JACK output plugin for DeaDBeeF: a shallow embedding of `ddb_jack.c`

The plugin keeps one process-wide `ddb_client` record and the output format
`plugin.fmt` it points to.  Every C function of the plugin becomes a Lean
function on an explicit `World`: the client record together with the list of
calls made so far to the host player, to the JACK server and to the three
plugin operations that other operations use as sub-steps.

Conventions of the embedding

* results of calls into the JACK server and the host are inputs
  (`JackServer`, `DB_functions_t`), so every theorem quantifies over every
  outcome of those calls;
* `unsigned` and `jack_nframes_t` arithmetic is arithmetic modulo `2^32`;
* a loop `for (unsigned short i = 0; i < channels; i++)` never leaves by its
  condition when `channels > 65535` (the 16-bit counter wraps first), so a
  function that enters such a loop returns `none` there: `none` means that
  the C function does not return (or divides by zero / overflows `int`);
* samples are values of an arbitrary type `F` carrying the multiplication and
  the zero of the C `float` type; nothing else about floats is used;
* the char flags of the client are read only for truth, so they are `Bool`.
-/

namespace DdbJack

/-! ## Constants of the C library and of the JACK and DeaDBeeF headers -/

/-- Value of `EPERM` in `errno.h`. -/
def EPERM : Nat := 1
/-- Value of `ESRCH` in `errno.h`. -/
def ESRCH : Nat := 3
/-- Value of `ENXIO` in `errno.h`. -/
def ENXIO : Nat := 6
/-- Value of `ENOEXEC` in `errno.h`. -/
def ENOEXEC : Nat := 8
/-- Value of `EACCES` in `errno.h`. -/
def EACCES : Nat := 13
/-- Value of `EEXIST` in `errno.h`. -/
def EEXIST : Int := 17
/-- Value of `CHAR_BIT` in `limits.h`. -/
def CHAR_BIT : Nat := 8
/-- Number of values of the C type `unsigned` (and of `jack_nframes_t`). -/
def UINT_SIZE : Nat := 4294967296
/-- Largest value of the C type `int`. -/
def INT_MAX : Nat := 2147483647
/-- Largest value of the C type `unsigned short`. -/
def USHRT_MAX : Nat := 65535

/-- Bit of `JackInitFailure` (`0x100`) in a `jack_status_t`. -/
def JackInitFailure_bit : Nat := 8
/-- Bit of `JackServerStarted` (`0x08`) in a `jack_status_t`. -/
def JackServerStarted_bit : Nat := 3
/-- Value of `JackNoStartServer` in `jack_options_t`. -/
def JackNoStartServer : Nat := 1

/-- Conversion of an `int` to `unsigned`. -/
def to_unsigned (x : Int) : Nat := (x % 4294967296).toNat

/-- Conversion `(char)` of an `int`, read for truth: the low eight bits are not all zero. -/
def char_flag (x : Int) : Bool := decide (x % 256 ≠ 0)

/-- Conversion `(int)` of a `jack_nframes_t`. -/
def to_int (n : Nat) : Int :=
  if n % UINT_SIZE ≤ INT_MAX then ((n % UINT_SIZE : Nat) : Int)
  else ((n % UINT_SIZE : Nat) : Int) - 4294967296

/-- Playback states `OUTPUT_STATE_*` of the host. -/
inductive OutputState where
  | OUTPUT_STATE_STOPPED
  | OUTPUT_STATE_PLAYING
  | OUTPUT_STATE_PAUSED
  deriving DecidableEq, Repr

open OutputState

/-- Sample format record `ddb_waveformat_t` of the host (all fields are `int`
except `channelmask`). -/
structure ddb_waveformat_t where
  bps : Nat
  channels : Nat
  samplerate : Int
  channelmask : Nat
  is_float : Nat
  is_bigendian : Nat
  deriving DecidableEq, Repr

/-! ## Calls that are recorded -/

/-- One recorded call.  The first three are entries of plugin functions that
other plugin functions invoke; the others are calls to the host player, to
the JACK server or to the C library. -/
inductive Call where
  | ddb_jack_init
  | ddb_jack_free
  | ddb_playback_stop
  | conf_get_int_autorestart
  | conf_get_int_autostart
  | conf_get_int_autoconnect
  | jack_client_open (options : Nat)
  | jack_get_sample_rate
  | jack_set_process_callback
  | jack_set_sample_rate_callback
  | jack_on_shutdown
  | jack_port_register (i : Nat)
  | jack_activate
  | jack_get_ports
  | jack_connect (i : Nat)
  | jack_client_close
  | jack_port_get_buffer (i : Nat) (nframes : Nat)
  | streamer_read (size : Nat)
  | streamer_reset (full : Nat)
  | volume_get_amp
  | sleep (seconds : Nat)
  deriving DecidableEq, Repr

/-! ## Client state -/

/-- The record `ddb_client_t`; `fmt` stands for the pointed-to `plugin.fmt`,
`client = none` for a `NULL` handle, `ports i = none` for a `NULL` port.  The
field `name` is the constant `DB_CLIENT_NAME` and is left out. -/
structure ddb_client_t where
  client : Option Nat
  status : Nat
  active : Bool
  autorestart : Bool
  autostart : Bool
  autoconnect : Bool
  connect : Bool
  fmt : ddb_waveformat_t
  state : OutputState
  ports : Nat → Option Nat

/-- The global state of the plugin together with the calls made so far. -/
structure World where
  ddb_client : ddb_client_t
  calls : List Call

/-- Record one call. -/
def World.call (w : World) (c : Call) : World :=
  { w with calls := w.calls ++ [c] }

/-- Update the client record. -/
def World.set (w : World) (f : ddb_client_t → ddb_client_t) : World :=
  { w with ddb_client := f w.ddb_client }

/-- The static initialiser of `ddb_client` and of `plugin.fmt`; fields the
initialiser does not name are zero. -/
def ddb_client0 : ddb_client_t :=
  { client := none
    status := 0
    active := false
    autorestart := true
    autostart := true
    autoconnect := true
    connect := false
    fmt := { bps := 32, channels := 2, samplerate := 0, channelmask := 3,
             is_float := 1, is_bigendian := 0 }
    state := OUTPUT_STATE_STOPPED
    ports := fun _ => none }

/-- The world at plugin load. -/
def world0 : World := { ddb_client := ddb_client0, calls := [] }

/-! ## The host functions used by the realtime callback -/

/-- The part of `DB_functions_t` the period callback uses.  `streamer_read size`
gives the `int` the streamer returns and the scratch buffer as it stands after
the call, seen as an array of floats (entries the streamer did not fill hold
whatever was there). -/
structure DB_functions_t (F : Type) where
  streamer_read : Nat → Int × (Nat → F)
  volume_get_amp : F

/-! ## `jack_proc_callback` -/

/-- What one period leaves behind: the return value, the world, and for each
port index the samples stored through `jack_port_buffer[j]`, in order, from
the start of the buffer `jack_port_get_buffer` returned. -/
structure Period (F : Type) where
  ret : Nat
  world : World
  out : Nat → List F

/-- The store `*jack_port_buffer[j]++ = v`. -/
def store {F : Type} (out : Nat → List F) (j : Nat) (v : F) : Nat → List F :=
  fun c => if c = j then out c ++ [v] else out c

/-- Byte size of the scratch buffer, `nframes * channels * (bps / CHAR_BIT)` in `unsigned`. -/
def buf_size (nframes : Nat) (fmt : ddb_waveformat_t) : Nat :=
  (nframes * fmt.channels * (fmt.bps / CHAR_BIT)) % UINT_SIZE

/-- The quotient `bytesread * CHAR_BIT / (channels * bps)` in `unsigned`. -/
def framesread (bytesread : Nat) (fmt : ddb_waveformat_t) : Nat :=
  ((bytesread * CHAR_BIT) % UINT_SIZE) / (fmt.channels * fmt.bps)

/-- The scratch index `(channels * i) + j` in `unsigned`. -/
def scratch_index (channels i j : Nat) : Nat :=
  (channels * i + j) % UINT_SIZE

/-- The calls `jack_port_get_buffer (ports[i], n)` for `i = 0 .. channels - 1`. -/
def get_buffers (channels n : Nat) (w : World) : World :=
  { w with calls := w.calls ++ (List.range channels).map (fun i => Call.jack_port_get_buffer i n) }

/-- Inner copy loop at frame `i`: one store per channel.  It is entered only
after the port loop has been left, so its `unsigned short` counter reaches
`channels`. -/
def copy_frame {F : Type} [Mul F] (channels : Nat) (buf : Nat → F) (vol : F) (i : Nat)
    (out : Nat → List F) : Nat → List F :=
  (List.range channels).foldl
    (fun o j => store o j (buf (scratch_index channels i j) * vol)) out

/-- Outer copy loop over the frames read. -/
def copy_frames {F : Type} [Mul F] (channels frames : Nat) (buf : Nat → F) (vol : F)
    (out : Nat → List F) : Nat → List F :=
  (List.range frames).foldl (fun o i => copy_frame channels buf vol i o) out

/-- Inner silence loop: one zero per channel (entered only after the port loop
has been left). -/
def zero_frame {F : Type} [Zero F] (channels : Nat) (out : Nat → List F) : Nat → List F :=
  (List.range channels).foldl (fun o j => store o j 0) out

/-- Outer silence loop over the whole period. -/
def zero_frames {F : Type} [Zero F] (channels nframes : Nat) (out : Nat → List F) :
    Nat → List F :=
  (List.range nframes).foldl (fun o _ => zero_frame channels o) out

/-- The period callback; `nframes` is a `jack_nframes_t`.  `none`: the callback
does not return, because the `unsigned short` port loop cannot reach
`channels`, or the division that computes `framesread` is by zero or its `int`
divisor overflows. -/
def jack_proc_callback {F : Type} [Mul F] [Zero F] (ddb_api : DB_functions_t F)
    (nframes : Nat) (w : World) : Option (Period F) :=
  let dbc := w.ddb_client
  if !dbc.connect then some { ret := EPERM, world := w, out := fun _ => [] }
  else
    match dbc.state with
    | OUTPUT_STATE_PLAYING =>
      let size := buf_size nframes dbc.fmt
      let rd := ddb_api.streamer_read size
      let w1 := w.call (Call.streamer_read size)
      let bytesread := to_unsigned rd.1
      if bytesread = to_unsigned (-1) then
        some { ret := 0
               world := w1.set (fun c => { c with state := OUTPUT_STATE_STOPPED })
               out := fun _ => [] }
      else if dbc.fmt.channels * dbc.fmt.bps = 0 ∨ INT_MAX < dbc.fmt.channels * dbc.fmt.bps then
        none
      else if USHRT_MAX < dbc.fmt.channels then none
      else
        let frames := framesread bytesread dbc.fmt
        let w2 := get_buffers dbc.fmt.channels frames w1
        let vol := ddb_api.volume_get_amp
        let w3 := w2.call Call.volume_get_amp
        some { ret := 0
               world := w3
               out := copy_frames dbc.fmt.channels frames rd.2 vol (fun _ => []) }
    | _ =>
      if USHRT_MAX < dbc.fmt.channels then none
      else
        some { ret := 0
               world := get_buffers dbc.fmt.channels nframes w
               out := zero_frames dbc.fmt.channels nframes (fun _ => []) }

/-! ## The JACK server and the host configuration, as seen by the control functions -/

/-- Outcomes of the calls the control functions make: the three configuration
integers, the handle and status `jack_client_open` gives, the server sample
rate, the return values of the callback installers, of `jack_activate` and of
`jack_client_close`, the port `jack_port_register` gives for port index `i`
(`none`: `NULL`), whether `jack_get_ports` gives a non-`NULL` array, and the
return value of `jack_connect` for port index `i`. -/
structure JackServer where
  conf_autorestart : Int
  conf_autostart : Int
  conf_autoconnect : Int
  client_open : Option Nat × Nat
  sample_rate : Nat
  set_process_callback : Int
  set_sample_rate_callback : Int
  port_register : Nat → Option Nat
  activate : Int
  get_ports : Bool
  connect : Nat → Int
  client_close : Int

/-! ## Transport and teardown -/

/-- The function `ddb_playback_stop`. -/
def ddb_playback_stop (w : World) : Nat × World :=
  let w1 := w.call Call.ddb_playback_stop
  let w2 := w1.set (fun c => { c with state := OUTPUT_STATE_STOPPED })
  (0, w2.call (Call.streamer_reset 1))

/-- The function `ddb_playback_pause`. -/
def ddb_playback_pause (w : World) : Nat × World :=
  if w.ddb_client.state = OUTPUT_STATE_STOPPED then (0, w)
  else (0, w.set (fun c => { c with state := OUTPUT_STATE_PAUSED }))

/-- The function `ddb_playback_state`. -/
def ddb_playback_state (w : World) : OutputState := w.ddb_client.state

/-- The function `ddb_jack_free` (`plugin.free`); `close_ret` is what
`jack_client_close` returns if it is called. -/
def ddb_jack_free (close_ret : Int) (w : World) : Nat × World :=
  let w1 := (w.call Call.ddb_jack_free).set (fun c => { c with connect := false })
  let w2 := if !w1.ddb_client.autostart then (ddb_playback_stop w1).2.call (Call.sleep 1) else w1
  match w2.ddb_client.client with
  | some _ =>
    let w3 := w2.call Call.jack_client_close
    if close_ret ≠ 0 then (EPERM, w3)
    else
      let w4 := w3.set (fun c => { c with client := none })
      (0, if w4.ddb_client.autostart then w4.call (Call.sleep 1) else w4)
  | none => (0, if w2.ddb_client.autostart then w2.call (Call.sleep 1) else w2)

/-! ## `ddb_jack_init` -/

/-- Iterations `i, i+1, ..., i+k-1` of the port registration loop; `false`
when a registration gave `NULL` and the loop was left for the rollback. -/
def register_ports (srv : JackServer) : Nat → Nat → World → Bool × World
  | 0, _, w => (true, w)
  | k + 1, i, w =>
    let w1 := (w.call (Call.jack_port_register i)).set
      (fun c => { c with ports := fun x => if x = i then srv.port_register i else c.ports x })
    match srv.port_register i with
    | none => (false, w1)
    | some _ => register_ports srv k (i + 1) w1

/-- Iterations `i, i+1, ..., i+k-1` of the loop that wires the ports to the
physical playback ports; `false` when `jack_connect` gave a value other than
`0` and `EEXIST`. -/
def connect_ports (srv : JackServer) : Nat → Nat → World → Bool × World
  | 0, _, w => (true, w)
  | k + 1, i, w =>
    let w1 := w.call (Call.jack_connect i)
    if srv.connect i ≠ 0 ∧ srv.connect i ≠ EEXIST then (false, w1)
    else connect_ports srv k (i + 1) w1

/-- First part of `ddb_jack_init`: the connect flag, the three configuration
reads and `jack_client_open`. -/
def init_open (srv : JackServer) (w : World) : World :=
  let w1 := (w.call Call.ddb_jack_init).set (fun c => { c with connect := true })
  let w2 := (w1.call Call.conf_get_int_autorestart).set
    (fun c => { c with autorestart := char_flag srv.conf_autorestart })
  let w3 := (w2.call Call.conf_get_int_autostart).set
    (fun c => { c with autostart := char_flag srv.conf_autostart })
  let w4 := (w3.call Call.conf_get_int_autoconnect).set
    (fun c => { c with autoconnect := char_flag srv.conf_autoconnect })
  let options := if w4.ddb_client.autostart then 0 else JackNoStartServer
  (w4.call (Call.jack_client_open options)).set
    (fun c => { c with client := srv.client_open.1, status := srv.client_open.2 })

/-- Second part of `ddb_jack_init`: the sample rate is adopted and `autostart`
records whether this call started the server. -/
def init_rate (srv : JackServer) (w : World) : World :=
  let w1 := (w.call Call.jack_get_sample_rate).set
    (fun c => { c with fmt := { c.fmt with samplerate := to_int srv.sample_rate } })
  w1.set (fun c => { c with autostart := c.status.testBit JackServerStarted_bit })

/-- Last part of `ddb_jack_init`, after `jack_activate` succeeded. -/
def init_autoconnect (srv : JackServer) (w : World) : Nat × World :=
  if w.ddb_client.autoconnect then
    let w1 := w.call Call.jack_get_ports
    if !srv.get_ports then ( ENXIO, w1)
    else
      let r := connect_ports srv w1.ddb_client.fmt.channels 0 w1
      if !r.1 then (EACCES, (ddb_jack_free srv.client_close r.2).2) else (0, r.2)
  else (0, w)

/-- The function `ddb_jack_init` (`plugin.init`, the connect operation).
`none`: every registration of the ports `0 .. 65535` succeeds and `channels`
is larger, so the 16-bit counter wraps and the registration loop goes on. -/
def ddb_jack_init (srv : JackServer) (w : World) : Option (Nat × World) :=
  let w1 := init_open srv w
  if w1.ddb_client.status.testBit JackInitFailure_bit then
    some (EPERM, (ddb_jack_free srv.client_close w1).2)
  else
    let w2 := (init_rate srv w1).call Call.jack_set_process_callback
    if srv.set_process_callback ≠ 0 then some (ESRCH, (ddb_jack_free srv.client_close w2).2)
    else
      let w3 := w2.call Call.jack_set_sample_rate_callback
      if srv.set_sample_rate_callback ≠ 0 then
        some (ESRCH, (ddb_jack_free srv.client_close w3).2)
      else
        let w4 := w3.call Call.jack_on_shutdown
        let r := register_ports srv (min w4.ddb_client.fmt.channels (USHRT_MAX + 1)) 0 w4
        if !r.1 then some ( ENXIO, (ddb_jack_free srv.client_close r.2).2)
        else if USHRT_MAX < w4.ddb_client.fmt.channels then none
        else
          let w5 := r.2.call Call.jack_activate
          if srv.activate ≠ 0 then some (EACCES, (ddb_jack_free srv.client_close w5).2)
          else some (init_autoconnect srv w5)

/-! ## Callbacks the server invokes outside the period -/

/-- The function `jack_rate_callback`; `rate` is what `jack_get_sample_rate` gives. -/
def jack_rate_callback (rate : Nat) (w : World) : Nat × World :=
  if !w.ddb_client.connect then (EPERM, w)
  else
    (0, (w.call Call.jack_get_sample_rate).set
      (fun c => { c with fmt := { c.fmt with samplerate := to_int rate } }))

/-- The tail `if (!ddb_jack_init ()) return ENOEXEC; return 0;` of `ddb_jack_setformat`. -/
def setformat_rebuild (srv : JackServer) (w : World) : Option (Nat × World) :=
  match ddb_jack_init srv w with
  | none => none
  | some r => if r.1 = 0 then some (ENOEXEC, r.2) else some (0, r.2)

/-- The function `ddb_jack_setformat` (`plugin.setformat`); `close_ret` is what
its own `jack_client_close` returns if it is called. -/
def ddb_jack_setformat (srv : JackServer) (close_ret : Int) (fmt : ddb_waveformat_t)
    (w : World) : Option (Nat × World) :=
  if w.ddb_client.fmt.channels = fmt.channels then some (0, w)
  else
    let w1 := w.set (fun c => { c with fmt := { c.fmt with channels := fmt.channels } })
    if w1.ddb_client.active then
      let s := ddb_playback_stop w1
      if s.1 ≠ 0 then some (EPERM, s.2)
      else
        let w2 := s.2.call Call.jack_client_close
        if close_ret ≠ 0 then some (ESRCH, w2)
        else setformat_rebuild srv (w2.set (fun c => { c with active := false }))
    else setformat_rebuild srv w1

/-- The function `ddb_playback_play` (`plugin.play`); `close_ret` is what the
`jack_client_close` of its own `plugin.free ()` returns if it is called. -/
def ddb_playback_play (srv : JackServer) (close_ret : Int) (w : World) : Option (Nat × World) :=
  if !w.ddb_client.connect then
    match ddb_jack_init srv w with
    | none => none
    | some r =>
      if r.1 ≠ 0 then some (EPERM, (ddb_jack_free close_ret r.2).2)
      else some (0, r.2.set (fun c => { c with state := OUTPUT_STATE_PLAYING }))
  else some (0, w.set (fun c => { c with state := OUTPUT_STATE_PLAYING }))

/-- The function `ddb_playback_unpause` (`plugin.unpause`). -/
def ddb_playback_unpause (srv : JackServer) (close_ret : Int) (w : World) :
    Option (Nat × World) :=
  match ddb_playback_play srv close_ret w with
  | none => none
  | some r => some (0, r.2)

/-- States the plugin reaches from its load through `init`, `play`, `pause`,
`stop` and `setformat`, under any outcomes of the server calls. -/
inductive Reachable : World → Prop where
  | load : Reachable world0
  | init (srv : JackServer) (w : World) (r : Nat × World) :
      Reachable w → ddb_jack_init srv w = some r → Reachable r.2
  | play (srv : JackServer) (close_ret : Int) (w : World) (r : Nat × World) :
      Reachable w → ddb_playback_play srv close_ret w = some r → Reachable r.2
  | pause (w : World) : Reachable w → Reachable (ddb_playback_pause w).2
  | stop (w : World) : Reachable w → Reachable (ddb_playback_stop w).2
  | setformat (srv : JackServer) (close_ret : Int) (fmt : ddb_waveformat_t) (w : World)
      (r : Nat × World) :
      Reachable w → ddb_jack_setformat srv close_ret fmt w = some r → Reachable r.2

/-! ## Fixtures used to evaluate the functions -/

/-- A server on which every call succeeds; it was already running. -/
def good_server : JackServer :=
  { conf_autorestart := 1
    conf_autostart := 1
    conf_autoconnect := 1
    client_open := (some 7, 0)
    sample_rate := 48000
    set_process_callback := 0
    set_sample_rate_callback := 0
    port_register := fun i => some (100 + i)
    activate := 0
    get_ports := true
    connect := fun _ => 0
    client_close := 0 }

/-- A server that cannot be reached: `jack_client_open` gives `NULL` and a
status with `JackFailure`, `JackServerFailed` and `JackInitFailure`; the
configuration asks not to start a server. -/
def dead_server : JackServer :=
  { good_server with conf_autostart := 0, client_open := (none, 273) }

/-- A request for one channel, otherwise the default format. -/
def mono_fmt : ddb_waveformat_t := { ddb_client0.fmt with channels := 1 }

/-- A request that keeps two channels and changes every other field. -/
def other_stereo_fmt : ddb_waveformat_t :=
  { bps := 16, channels := 2, samplerate := 44100, channelmask := 3, is_float := 0,
    is_bigendian := 1 }

/-- The world after `plugin.init ()` on the good server, from plugin load. -/
def world_connected : World := ((ddb_jack_init good_server world0).getD (0, world0)).2

/-- The world after `plugin.play ()` on the connected client. -/
def world_playing : World :=
  ((ddb_playback_play good_server 0 world_connected).getD (0, world0)).2

/-- A server without physical playback ports: `jack_get_ports` gives `NULL`. -/
def no_playback_server : JackServer := { good_server with get_ports := false }

/-- A server on which `jack_activate` fails and `jack_client_close` fails too. -/
def stuck_server : JackServer := { good_server with activate := 1, client_close := 1 }

/-- A host whose streamer delivers `bytes` bytes and whose scratch buffer then
holds the integer samples `1, 2, 3, ...`; the gain is `gain`. -/
def ramp_host (bytes : Int) (gain : Int) : DB_functions_t Int :=
  { streamer_read := fun _ => (bytes, fun idx => (idx : Int) + 1)
    volume_get_amp := gain }

/-- A connected client with the given playback state and channel count, 32-bit float format. -/
def connected_world (st : OutputState) (channels : Nat) : World :=
  { ddb_client :=
      { ddb_client0 with
        client := some 7
        connect := true
        state := st
        fmt := { ddb_client0.fmt with channels := channels, samplerate := 48000 }
        ports := fun i => if i < channels then some i else none }
    calls := [] }

/-! ## Lemmas on the sample loops -/

theorem foldl_store_apply {F : Type} (g : Nat → F) (n : Nat) (out : Nat → List F) (c : Nat) :
    (List.range n).foldl (fun o j => store o j (g j)) out c
      = if c < n then out c ++ [g c] else out c := by
  induction n with
  | zero => simp
  | succ n ih =>
    rw [List.range_succ, List.foldl_append]
    simp only [List.foldl_cons, List.foldl_nil, store]
    by_cases h : c = n
    · subst h
      simp [ih]
    · rw [if_neg h, ih]
      by_cases h2 : c < n
      · simp [h2, Nat.lt_succ_of_lt h2]
      · have : ¬ c < n + 1 := by omega
        simp [h2, this]

theorem copy_frame_apply {F : Type} [Mul F] (channels : Nat) (buf : Nat → F) (vol : F)
    (i : Nat) (out : Nat → List F) (c : Nat) :
    copy_frame channels buf vol i out c
      = if c < channels then out c ++ [buf (scratch_index channels i c) * vol] else out c := by
  unfold copy_frame
  exact foldl_store_apply (fun j => buf (scratch_index channels i j) * vol) channels out c

theorem copy_frames_apply {F : Type} [Mul F] (channels frames : Nat) (buf : Nat → F) (vol : F)
    (out : Nat → List F) (c : Nat) :
    copy_frames channels frames buf vol out c
      = if c < channels then
          out c ++ (List.range frames).map (fun i => buf (scratch_index channels i c) * vol)
        else out c := by
  unfold copy_frames
  induction frames with
  | zero => simp
  | succ n ih =>
    rw [List.range_succ, List.foldl_append]
    simp only [List.foldl_cons, List.foldl_nil]
    rw [copy_frame_apply, ih]
    by_cases h : c < channels
    · simp [h]
    · simp [h]

theorem zero_frame_apply {F : Type} [Zero F] (channels : Nat) (out : Nat → List F) (c : Nat) :
    zero_frame channels out c = if c < channels then out c ++ [0] else out c := by
  unfold zero_frame
  exact foldl_store_apply (fun _ => (0 : F)) channels out c

theorem zero_frames_apply {F : Type} [Zero F] (channels nframes : Nat) (out : Nat → List F)
    (c : Nat) :
    zero_frames channels nframes out c
      = if c < channels then out c ++ List.replicate nframes 0 else out c := by
  unfold zero_frames
  induction nframes with
  | zero => simp
  | succ n ih =>
    rw [List.range_succ, List.foldl_append]
    simp only [List.foldl_cons, List.foldl_nil]
    rw [zero_frame_apply, ih]
    by_cases h : c < channels
    · simp [h, List.replicate_succ']
    · simp [h]

/-! ## Lemmas on the machine arithmetic of the callback -/

theorem to_unsigned_minus_one : to_unsigned (-1) = 4294967295 := by decide

theorem to_unsigned_natCast (b : Nat) (h : b < 4294967296) : to_unsigned (b : Int) = b := by
  unfold to_unsigned
  have h1 : ((b : Int) % 4294967296) = (b : Int) :=
    Int.emod_eq_of_lt (Int.ofNat_nonneg b) (by exact_mod_cast h)
  rw [h1]
  exact Int.toNat_ofNat b

theorem framesread_eq (b : Nat) (fmt : ddb_waveformat_t) (hbps : fmt.bps = 32)
    (hb : b * 8 < 4294967296) : framesread b fmt = b / (fmt.channels * 4) := by
  unfold framesread
  simp only [CHAR_BIT, UINT_SIZE, hbps]
  rw [Nat.mod_eq_of_lt hb]
  have h : fmt.channels * 32 = fmt.channels * 4 * 8 := by omega
  rw [h]
  exact Nat.mul_div_mul_right b (fmt.channels * 4) (by decide)

theorem scratch_index_bound (channels frames b i j : Nat) (hf : frames = b / (channels * 4))
    (hi : i < frames) (hj : j < channels) : channels * i + j < b / 4 := by
  have h1 : channels * (i + 1) ≤ channels * frames := Nat.mul_le_mul_left channels hi
  have h2 : b / (channels * 4) * (channels * 4) ≤ b := Nat.div_mul_le_self b (channels * 4)
  rw [← hf] at h2
  have h3 : channels * (i + 1) = channels * i + channels := by ring
  have h4 : frames * (channels * 4) = 4 * (channels * frames) := by ring
  omega

/-! ## Lemmas on the world -/

@[simp]
theorem call_ddb_client (w : World) (c : Call) : (w.call c).ddb_client = w.ddb_client :=
  rfl

@[simp]
theorem call_calls (w : World) (c : Call) : (w.call c).calls = w.calls ++ [c] := rfl

@[simp]
theorem set_ddb_client (w : World) (f : ddb_client_t → ddb_client_t) :
    (w.set f).ddb_client = f w.ddb_client := rfl

@[simp]
theorem set_calls (w : World) (f : ddb_client_t → ddb_client_t) :
    (w.set f).calls = w.calls := rfl

@[simp]
theorem get_buffers_ddb_client (channels n : Nat) (w : World) :
    (get_buffers channels n w).ddb_client = w.ddb_client := rfl

@[simp]
theorem stop_connect (w : World) :
    (ddb_playback_stop w).2.ddb_client.connect = w.ddb_client.connect := rfl

@[simp]
theorem stop_client (w : World) :
    (ddb_playback_stop w).2.ddb_client.client = w.ddb_client.client := rfl

@[simp]
theorem stop_autostart (w : World) :
    (ddb_playback_stop w).2.ddb_client.autostart = w.ddb_client.autostart := rfl

theorem free_connect (close_ret : Int) (w : World) :
    (ddb_jack_free close_ret w).2.ddb_client.connect = false := by
  unfold ddb_jack_free
  cases ha : w.ddb_client.autostart <;> cases hcl : w.ddb_client.client <;>
    by_cases hr : close_ret = 0 <;> simp [ha, hcl, hr]

theorem free_client (close_ret : Int) (w : World) (h : close_ret = 0) :
    (ddb_jack_free close_ret w).2.ddb_client.client = none := by
  unfold ddb_jack_free
  cases ha : w.ddb_client.autostart <;> cases hcl : w.ddb_client.client <;>
    simp [ha, hcl, h]

theorem free_client_none (close_ret : Int) (w : World) (h : w.ddb_client.client = none) :
    (ddb_jack_free close_ret w).2.ddb_client.client = none := by
  unfold ddb_jack_free
  cases ha : w.ddb_client.autostart <;> simp [ha, h]

/-! ## The period callback -/

/-- C9 (disconnect makes the period callback a no-op).  Whatever the client
state and whatever `jack_client_close` returns, after `ddb_jack_free` the connect
flag is false, and a following `jack_proc_callback`, for any frame count and any
host, returns the non-zero `EPERM` with the world unchanged (no stream read is
recorded, the playback state is the same) and nothing stored in any port buffer. -/
theorem free_then_period_is_noop {F : Type} [Mul F] [Zero F] (ddb_api : DB_functions_t F)
    (close_ret : Int) (nframes : Nat) (w : World) :
    (ddb_jack_free close_ret w).2.ddb_client.connect = false ∧
    ∃ p, jack_proc_callback ddb_api nframes (ddb_jack_free close_ret w).2 = some p ∧
      p.ret = EPERM ∧ p.ret ≠ 0 ∧ p.world = (ddb_jack_free close_ret w).2 ∧
      ∀ j, p.out j = [] := by
  refine ⟨free_connect close_ret w, ?_⟩
  refine ⟨{ ret := EPERM, world := (ddb_jack_free close_ret w).2, out := fun _ => [] }, ?_, rfl,
    ?_, rfl, fun _ => rfl⟩
  · unfold jack_proc_callback
    simp [free_connect close_ret w]
  · show EPERM ≠ 0
    decide

/-- C3 (stream stall).  For a connected client in state Playing, when the
streamer returns the sentinel `-1`, `jack_proc_callback` returns 0, the client
record is the old one with only `state` set to Stopped (format, flags and
connection are the same), nothing is stored in any port buffer, and the only
call recorded is the stream read itself. -/
theorem stream_stall_stops {F : Type} [Mul F] [Zero F] (ddb_api : DB_functions_t F)
    (nframes : Nat) (w : World)
    (hc : w.ddb_client.connect = true)
    (hs : w.ddb_client.state = OUTPUT_STATE_PLAYING)
    (hrd : (ddb_api.streamer_read (buf_size nframes w.ddb_client.fmt)).1 = -1) :
    ∃ p, jack_proc_callback ddb_api nframes w = some p ∧ p.ret = 0 ∧
      p.world.ddb_client = { w.ddb_client with state := OUTPUT_STATE_STOPPED } ∧
      p.world.calls = w.calls ++ [Call.streamer_read (buf_size nframes w.ddb_client.fmt)] ∧
      ∀ j, p.out j = [] := by
  refine ⟨{ ret := 0
            world := (w.call (Call.streamer_read (buf_size nframes w.ddb_client.fmt))).set
              (fun c => { c with state := OUTPUT_STATE_STOPPED })
            out := fun _ => [] }, ?_, rfl, rfl, rfl, fun _ => rfl⟩
  unfold jack_proc_callback
  simp [hc, hs, hrd]

/-- Witness of `stream_stall_stops`: a two-channel client in state Playing whose
streamer returns `-1` for a period of 4 frames. -/
theorem stream_stall_stops_witness :
    ((connected_world OUTPUT_STATE_PLAYING 2).ddb_client.connect = true ∧
      (connected_world OUTPUT_STATE_PLAYING 2).ddb_client.state = OUTPUT_STATE_PLAYING ∧
      ((ramp_host (-1) 3).streamer_read
        (buf_size 4 (connected_world OUTPUT_STATE_PLAYING 2).ddb_client.fmt)).1 = -1) ∧
    ∃ p, jack_proc_callback (ramp_host (-1) 3) 4 (connected_world OUTPUT_STATE_PLAYING 2) = some p ∧
      p.ret = 0 ∧
      p.world.ddb_client
        = { (connected_world OUTPUT_STATE_PLAYING 2).ddb_client with
            state := OUTPUT_STATE_STOPPED } ∧
      p.world.calls = (connected_world OUTPUT_STATE_PLAYING 2).calls ++
        [Call.streamer_read
          (buf_size 4 (connected_world OUTPUT_STATE_PLAYING 2).ddb_client.fmt)] ∧
      ∀ j, p.out j = [] :=
  ⟨⟨rfl, rfl, rfl⟩,
    stream_stall_stops (ramp_host (-1) 3) 4 (connected_world OUTPUT_STATE_PLAYING 2) rfl rfl rfl⟩

/-- The Playing branch when the streamer delivers data and the loop counters
and the divisor are in range. -/
theorem playing_period {F : Type} [Mul F] [Zero F] (ddb_api : DB_functions_t F)
    (nframes : Nat) (w : World)
    (hc : w.ddb_client.connect = true)
    (hs : w.ddb_client.state = OUTPUT_STATE_PLAYING)
    (hrd : to_unsigned (ddb_api.streamer_read (buf_size nframes w.ddb_client.fmt)).1
      ≠ to_unsigned (-1))
    (hpos : w.ddb_client.fmt.channels * w.ddb_client.fmt.bps ≠ 0)
    (hint : w.ddb_client.fmt.channels * w.ddb_client.fmt.bps ≤ INT_MAX)
    (hU : w.ddb_client.fmt.channels ≤ USHRT_MAX) :
    jack_proc_callback ddb_api nframes w = some
      { ret := 0
        world := (get_buffers w.ddb_client.fmt.channels
          (framesread (to_unsigned
            (ddb_api.streamer_read (buf_size nframes w.ddb_client.fmt)).1) w.ddb_client.fmt)
          (w.call (Call.streamer_read (buf_size nframes w.ddb_client.fmt)))).call
            Call.volume_get_amp
        out := copy_frames w.ddb_client.fmt.channels
          (framesread (to_unsigned
            (ddb_api.streamer_read (buf_size nframes w.ddb_client.fmt)).1) w.ddb_client.fmt)
          (ddb_api.streamer_read (buf_size nframes w.ddb_client.fmt)).2
          ddb_api.volume_get_amp (fun _ => []) } := by
  unfold jack_proc_callback
  have h1 : ¬ INT_MAX < w.ddb_client.fmt.channels * w.ddb_client.fmt.bps := Nat.not_lt.mpr hint
  have h2 : ¬ USHRT_MAX < w.ddb_client.fmt.channels := Nat.not_lt.mpr hU
  simp only [hc, hs, Bool.not_true, Bool.false_eq_true, if_false, if_neg hrd, hpos, h1, h2,
    or_self]

/-- C2, amended (silence invariant).  For a connected client whose playback
state is not Playing and whose channel count N is at most 65535, for every
frame count, host and gain, `jack_proc_callback` returns 0, stores exactly
`nframes` samples in each of the port buffers `0 .. N-1`, all zero, stores
nothing elsewhere, leaves the client record (so the playback state) as it was,
and the only calls it makes are the N `jack_port_get_buffer` calls: the stream
is not read. -/
theorem silence_when_not_playing {F : Type} [Mul F] [Zero F] (ddb_api : DB_functions_t F)
    (nframes : Nat) (w : World)
    (hc : w.ddb_client.connect = true)
    (hs : w.ddb_client.state ≠ OUTPUT_STATE_PLAYING)
    (hU : w.ddb_client.fmt.channels ≤ USHRT_MAX) :
    ∃ p, jack_proc_callback ddb_api nframes w = some p ∧ p.ret = 0 ∧
      (∀ j, j < w.ddb_client.fmt.channels → p.out j = List.replicate nframes 0) ∧
      (∀ j, w.ddb_client.fmt.channels ≤ j → p.out j = []) ∧
      p.world.ddb_client = w.ddb_client ∧
      p.world.calls = w.calls ++
        (List.range w.ddb_client.fmt.channels).map (fun i => Call.jack_port_get_buffer i nframes) ∧
      ∀ size, p.world.calls.count (Call.streamer_read size)
        = w.calls.count (Call.streamer_read size) := by
  have h2 : ¬ USHRT_MAX < w.ddb_client.fmt.channels := Nat.not_lt.mpr hU
  refine ⟨{ ret := 0
            world := get_buffers w.ddb_client.fmt.channels nframes w
            out := zero_frames w.ddb_client.fmt.channels nframes (fun _ => []) },
    ?_, rfl, ?_, ?_, rfl, rfl, ?_⟩
  · unfold jack_proc_callback
    cases hst : w.ddb_client.state with
    | OUTPUT_STATE_PLAYING => exact absurd hst hs
    | OUTPUT_STATE_STOPPED => simp [hc, h2]
    | OUTPUT_STATE_PAUSED => simp [hc, h2]
  · intro j hj
    show zero_frames w.ddb_client.fmt.channels nframes (fun _ => []) j = _
    rw [zero_frames_apply, if_pos hj]
    simp
  · intro j hj
    show zero_frames w.ddb_client.fmt.channels nframes (fun _ => []) j = _
    rw [zero_frames_apply, if_neg (Nat.not_lt.mpr hj)]
  · intro size
    show (get_buffers w.ddb_client.fmt.channels nframes w).calls.count _ = _
    unfold get_buffers
    rw [List.count_append]
    have h0 : ((List.range w.ddb_client.fmt.channels).map
        (fun i => Call.jack_port_get_buffer i nframes)).count (Call.streamer_read size) = 0 := by
      rw [List.count_eq_zero]
      intro hm
      rcases List.mem_map.mp hm with ⟨i, _, hi⟩
      cases hi
    rw [h0, Nat.add_zero]

/-- Witness of `silence_when_not_playing`: a paused two-channel client, a period of 3 frames. -/
theorem silence_when_not_playing_witness :
    ((connected_world OUTPUT_STATE_PAUSED 2).ddb_client.connect = true ∧
      (connected_world OUTPUT_STATE_PAUSED 2).ddb_client.state ≠ OUTPUT_STATE_PLAYING ∧
      (connected_world OUTPUT_STATE_PAUSED 2).ddb_client.fmt.channels ≤ USHRT_MAX) ∧
    ∃ p, jack_proc_callback (ramp_host 24 5) 3 (connected_world OUTPUT_STATE_PAUSED 2) = some p ∧
      p.ret = 0 ∧
      (∀ j, j < 2 → p.out j = List.replicate 3 0) ∧
      (∀ j, 2 ≤ j → p.out j = []) ∧
      p.world.ddb_client = (connected_world OUTPUT_STATE_PAUSED 2).ddb_client ∧
      p.world.calls = (connected_world OUTPUT_STATE_PAUSED 2).calls ++
        (List.range 2).map (fun i => Call.jack_port_get_buffer i 3) ∧
      ∀ size, p.world.calls.count (Call.streamer_read size)
        = (connected_world OUTPUT_STATE_PAUSED 2).calls.count (Call.streamer_read size) :=
  ⟨⟨rfl, by decide, by decide⟩,
    silence_when_not_playing (ramp_host 24 5) 3 (connected_world OUTPUT_STATE_PAUSED 2) rfl
      (by decide) (by decide)⟩

/-- C2 as stated fails for a channel count above 65535: with 65536 channels
the stopped client never gets out of the `unsigned short` port loop, so the
callback returns nothing. -/
theorem silence_fails_above_ushort :
    ¬ ∃ p, jack_proc_callback (ramp_host 0 1) 1 (connected_world OUTPUT_STATE_STOPPED 65536)
      = some p := by
  have h : jack_proc_callback (ramp_host 0 1) 1 (connected_world OUTPUT_STATE_STOPPED 65536)
      = none := by
    unfold jack_proc_callback
    simp [connected_world, ddb_client0, USHRT_MAX]
  simp [h]

/-- C1, amended (de-interleave with gain).  For a connected client in state
Playing with channel count N, 1 ≤ N ≤ 65535, and 32 bits per sample, for every
frame count, every gain and every stream read that returns the `k * N * 4`
bytes of k whole frames with `k * N * 32` below `2^32` (so that the `unsigned`
product `bytesread * CHAR_BIT` does not wrap), `jack_proc_callback` returns 0
and the buffer of channel j holds exactly the k samples
`scratch[i * N + j] * gain`, i = 0 .. k-1, in that order, for every j < N. -/
theorem deinterleave_with_gain {F : Type} [Mul F] [Zero F] (ddb_api : DB_functions_t F)
    (nframes k : Nat) (w : World)
    (hc : w.ddb_client.connect = true)
    (hs : w.ddb_client.state = OUTPUT_STATE_PLAYING)
    (hN : 1 ≤ w.ddb_client.fmt.channels)
    (hU : w.ddb_client.fmt.channels ≤ USHRT_MAX)
    (hbps : w.ddb_client.fmt.bps = 32)
    (hk : k * w.ddb_client.fmt.channels * 32 < UINT_SIZE)
    (hrd : (ddb_api.streamer_read (buf_size nframes w.ddb_client.fmt)).1
      = ((k * w.ddb_client.fmt.channels * 4 : Nat) : Int)) :
    ∃ p, jack_proc_callback ddb_api nframes w = some p ∧ p.ret = 0 ∧
      (∀ j, j < w.ddb_client.fmt.channels →
        p.out j = (List.range k).map (fun i =>
          (ddb_api.streamer_read (buf_size nframes w.ddb_client.fmt)).2
            (i * w.ddb_client.fmt.channels + j) * ddb_api.volume_get_amp)) ∧
      (∀ i j, i < k → j < w.ddb_client.fmt.channels →
        (p.out j)[i]? = some
          ((ddb_api.streamer_read (buf_size nframes w.ddb_client.fmt)).2
            (i * w.ddb_client.fmt.channels + j) * ddb_api.volume_get_amp)) := by
  simp only [UINT_SIZE, USHRT_MAX] at hk hU
  have hb : to_unsigned (ddb_api.streamer_read (buf_size nframes w.ddb_client.fmt)).1
      = k * w.ddb_client.fmt.channels * 4 := by
    rw [hrd]
    exact to_unsigned_natCast _ (by omega)
  have hfr : framesread (k * w.ddb_client.fmt.channels * 4) w.ddb_client.fmt = k := by
    rw [framesread_eq _ _ hbps (by omega)]
    have h4 : k * w.ddb_client.fmt.channels * 4 = k * (w.ddb_client.fmt.channels * 4) := by ring
    rw [h4]
    exact Nat.mul_div_cancel k (by omega)
  have hcb := playing_period ddb_api nframes w hc hs
    (by rw [hb, to_unsigned_minus_one]; omega)
    (by rw [hbps]; omega) (by rw [hbps]; simp only [INT_MAX]; omega)
    (by simp only [USHRT_MAX]; exact hU)
  rw [hb, hfr] at hcb
  have hout : ∀ j, j < w.ddb_client.fmt.channels →
      copy_frames w.ddb_client.fmt.channels k
        (ddb_api.streamer_read (buf_size nframes w.ddb_client.fmt)).2
        ddb_api.volume_get_amp (fun _ => []) j
      = (List.range k).map (fun i =>
          (ddb_api.streamer_read (buf_size nframes w.ddb_client.fmt)).2
            (i * w.ddb_client.fmt.channels + j) * ddb_api.volume_get_amp) := by
    intro j hj
    rw [copy_frames_apply, if_pos hj, List.nil_append]
    apply List.map_congr_left
    intro i hi
    have hi2 : i < k := List.mem_range.mp hi
    have h1 : w.ddb_client.fmt.channels * (i + 1) ≤ w.ddb_client.fmt.channels * k :=
      Nat.mul_le_mul_left _ hi2
    have h2 : w.ddb_client.fmt.channels * (i + 1)
        = w.ddb_client.fmt.channels * i + w.ddb_client.fmt.channels := by ring
    have h3 : w.ddb_client.fmt.channels * k = k * w.ddb_client.fmt.channels := by ring
    have h5 : i * w.ddb_client.fmt.channels = w.ddb_client.fmt.channels * i := by ring
    have h4 : scratch_index w.ddb_client.fmt.channels i j
        = i * w.ddb_client.fmt.channels + j := by
      unfold scratch_index
      simp only [UINT_SIZE]
      rw [Nat.mod_eq_of_lt (by omega)]
      omega
    rw [h4]
  refine ⟨_, hcb, rfl, hout, ?_⟩
  intro i j hi hj
  show (copy_frames w.ddb_client.fmt.channels k
        (ddb_api.streamer_read (buf_size nframes w.ddb_client.fmt)).2
        ddb_api.volume_get_amp (fun _ => []) j)[i]? = _
  rw [hout j hj]
  simp [hi]

/-- Witness of `deinterleave_with_gain`: two channels, a period of 4 frames, a
read of 3 whole frames (24 bytes) holding the samples 1, 2, 3, ..., gain 5. -/
theorem deinterleave_with_gain_witness :
    (3 * 2 * 32 < UINT_SIZE) ∧
    ∃ p, jack_proc_callback (ramp_host 24 5) 4 (connected_world OUTPUT_STATE_PLAYING 2) = some p ∧
      p.ret = 0 ∧
      (∀ j, j < 2 → p.out j = (List.range 3).map (fun i =>
          ((ramp_host 24 5).streamer_read
            (buf_size 4 (connected_world OUTPUT_STATE_PLAYING 2).ddb_client.fmt)).2
              (i * 2 + j) * 5)) ∧
      (∀ i j, i < 3 → j < 2 → (p.out j)[i]? = some
          (((ramp_host 24 5).streamer_read
            (buf_size 4 (connected_world OUTPUT_STATE_PLAYING 2).ddb_client.fmt)).2
              (i * 2 + j) * 5)) :=
  ⟨by decide,
   deinterleave_with_gain (ramp_host 24 5) 4 3 (connected_world OUTPUT_STATE_PLAYING 2) rfl rfl
    (by decide) (by decide) rfl (by decide) rfl⟩

/-- C1 as stated fails in two ways.  (a) One channel, a read of `2^27` whole
frames (`2^29` bytes): `bytesread * CHAR_BIT` wraps to 0 in `unsigned`, no frame
is copied and position 0 of channel 0 does not hold `scratch[0] * gain`.
(b) 65536 channels and a read of one whole frame: the callback never gets out
of the `unsigned short` port loop. -/
theorem deinterleave_fails_out_of_range :
    (¬ ∃ p, jack_proc_callback (ramp_host 536870912 3) 134217728
          (connected_world OUTPUT_STATE_PLAYING 1) = some p ∧ p.ret = 0 ∧
        ∀ i j, i < 134217728 → j < 1 → (p.out j)[i]? = some
          (((ramp_host 536870912 3).streamer_read
            (buf_size 134217728 (connected_world OUTPUT_STATE_PLAYING 1).ddb_client.fmt)).2
              (i * 1 + j) * 3)) ∧
    (¬ ∃ p, jack_proc_callback (ramp_host 262144 3) 1
          (connected_world OUTPUT_STATE_PLAYING 65536) = some p) := by
  constructor
  · rintro ⟨p, hp, -, hall⟩
    have h := playing_period (ramp_host 536870912 3) 134217728
      (connected_world OUTPUT_STATE_PLAYING 1) rfl rfl (by decide) (by decide) (by decide)
      (by decide)
    rw [h] at hp
    have h0 := hall 0 0 (by decide) (by decide)
    rw [← Option.some.inj hp] at h0
    revert h0
    decide
  · have h : jack_proc_callback (ramp_host 262144 3) 1
        (connected_world OUTPUT_STATE_PLAYING 65536) = none := by
      unfold jack_proc_callback
      simp [connected_world, ddb_client0, USHRT_MAX, ramp_host, buf_size, to_unsigned, INT_MAX]
    simp [h]

/-- C10, amended (short reads stay in bounds).  For a connected client in state
Playing with channel count N, 1 ≤ N ≤ 65535, and 32 bits per sample, every
frame count and every byte count b the streamer returns that is at most the
requested capacity (`nframes * N * 4` as the code computes it in `unsigned`)
and has `b * 8` below `2^32`: the computed `framesread` equals `b / (N * 4)` and is at most `nframes`;
every scratch index the copy loop reads is `N * i + j` and lies below `b / 4`;
the callback returns 0 having stored exactly `framesread` samples in each of the
channel buffers `0 .. N-1`, sample i of channel j being
`scratch[N * i + j] * gain`, and nothing elsewhere; and the stored samples are the
same for any other scratch contents that agree below index `b / 4`, so nothing
beyond the delivered bytes reaches a port buffer. -/
theorem short_read_in_bounds {F : Type} [Mul F] [Zero F] (ddb_api : DB_functions_t F)
    (nframes b : Nat) (w : World)
    (hc : w.ddb_client.connect = true)
    (hs : w.ddb_client.state = OUTPUT_STATE_PLAYING)
    (hN : 1 ≤ w.ddb_client.fmt.channels)
    (hU : w.ddb_client.fmt.channels ≤ USHRT_MAX)
    (hbps : w.ddb_client.fmt.bps = 32)
    (hb8 : b * 8 < UINT_SIZE)
    (hcap : b ≤ buf_size nframes w.ddb_client.fmt)
    (hrd : (ddb_api.streamer_read (buf_size nframes w.ddb_client.fmt)).1 = (b : Int)) :
    framesread b w.ddb_client.fmt = b / (w.ddb_client.fmt.channels * 4) ∧
    framesread b w.ddb_client.fmt ≤ nframes ∧
    (∀ i j, i < framesread b w.ddb_client.fmt → j < w.ddb_client.fmt.channels →
      scratch_index w.ddb_client.fmt.channels i j = w.ddb_client.fmt.channels * i + j ∧
      scratch_index w.ddb_client.fmt.channels i j < b / 4) ∧
    ∃ p, jack_proc_callback ddb_api nframes w = some p ∧ p.ret = 0 ∧
      (∀ j, j < w.ddb_client.fmt.channels →
        (p.out j).length = framesread b w.ddb_client.fmt) ∧
      (∀ j, w.ddb_client.fmt.channels ≤ j → p.out j = []) ∧
      (∀ i j, i < framesread b w.ddb_client.fmt → j < w.ddb_client.fmt.channels →
        (p.out j)[i]? = some
          ((ddb_api.streamer_read (buf_size nframes w.ddb_client.fmt)).2
            (w.ddb_client.fmt.channels * i + j) * ddb_api.volume_get_amp)) ∧
      (∀ other : DB_functions_t F,
        other.volume_get_amp = ddb_api.volume_get_amp →
        (other.streamer_read (buf_size nframes w.ddb_client.fmt)).1 = (b : Int) →
        (∀ x, x < b / 4 →
          (other.streamer_read (buf_size nframes w.ddb_client.fmt)).2 x
            = (ddb_api.streamer_read (buf_size nframes w.ddb_client.fmt)).2 x) →
        ∃ q, jack_proc_callback other nframes w = some q ∧ ∀ j, q.out j = p.out j) := by
  simp only [UINT_SIZE, USHRT_MAX] at hb8 hU
  have hb : b ≤ nframes * w.ddb_client.fmt.channels * 4 := by
    have h1 : buf_size nframes w.ddb_client.fmt ≤ nframes * w.ddb_client.fmt.channels * 4 := by
      unfold buf_size
      rw [hbps]
      exact Nat.mod_le _ _
    exact Nat.le_trans hcap h1
  have hfr : framesread b w.ddb_client.fmt = b / (w.ddb_client.fmt.channels * 4) :=
    framesread_eq b _ hbps hb8
  have hle : framesread b w.ddb_client.fmt ≤ nframes := by
    rw [hfr]
    have h4 : nframes * w.ddb_client.fmt.channels * 4
        = nframes * (w.ddb_client.fmt.channels * 4) := by ring
    rw [h4] at hb
    calc b / (w.ddb_client.fmt.channels * 4)
        ≤ nframes * (w.ddb_client.fmt.channels * 4) / (w.ddb_client.fmt.channels * 4) :=
          Nat.div_le_div_right hb
      _ = nframes := Nat.mul_div_cancel nframes (by omega)
  have hidx : ∀ i j, i < framesread b w.ddb_client.fmt → j < w.ddb_client.fmt.channels →
      scratch_index w.ddb_client.fmt.channels i j = w.ddb_client.fmt.channels * i + j ∧
      scratch_index w.ddb_client.fmt.channels i j < b / 4 := by
    intro i j hi hj
    have hlt := scratch_index_bound w.ddb_client.fmt.channels _ b i j hfr hi hj
    have heq : scratch_index w.ddb_client.fmt.channels i j
        = w.ddb_client.fmt.channels * i + j := by
      unfold scratch_index
      simp only [UINT_SIZE]
      exact Nat.mod_eq_of_lt (by omega)
    rw [heq]
    exact ⟨rfl, hlt⟩
  have hsent : ∀ api2 : DB_functions_t F,
      (api2.streamer_read (buf_size nframes w.ddb_client.fmt)).1 = (b : Int) →
      to_unsigned (api2.streamer_read (buf_size nframes w.ddb_client.fmt)).1 = b := by
    intro api2 h
    rw [h]
    exact to_unsigned_natCast b (by omega)
  have hplay : ∀ api2 : DB_functions_t F,
      (api2.streamer_read (buf_size nframes w.ddb_client.fmt)).1 = (b : Int) →
      jack_proc_callback api2 nframes w = some
        { ret := 0
          world := (get_buffers w.ddb_client.fmt.channels (framesread b w.ddb_client.fmt)
            (w.call (Call.streamer_read (buf_size nframes w.ddb_client.fmt)))).call
              Call.volume_get_amp
          out := copy_frames w.ddb_client.fmt.channels (framesread b w.ddb_client.fmt)
            (api2.streamer_read (buf_size nframes w.ddb_client.fmt)).2
            api2.volume_get_amp (fun _ => []) } := by
    intro api2 h
    have hcb := playing_period api2 nframes w hc hs
      (by rw [hsent api2 h, to_unsigned_minus_one]; omega)
      (by rw [hbps]; omega) (by rw [hbps]; simp only [INT_MAX]; omega)
      (by simp only [USHRT_MAX]; exact hU)
    rw [hsent api2 h] at hcb
    exact hcb
  have hout : ∀ (api2 : DB_functions_t F) (j : Nat),
      copy_frames w.ddb_client.fmt.channels (framesread b w.ddb_client.fmt)
        (api2.streamer_read (buf_size nframes w.ddb_client.fmt)).2
        api2.volume_get_amp (fun _ => []) j
      = if j < w.ddb_client.fmt.channels then
          (List.range (framesread b w.ddb_client.fmt)).map (fun i =>
            (api2.streamer_read (buf_size nframes w.ddb_client.fmt)).2
              (w.ddb_client.fmt.channels * i + j) * api2.volume_get_amp)
        else [] := by
    intro api2 j
    rw [copy_frames_apply]
    by_cases hj : j < w.ddb_client.fmt.channels
    · rw [if_pos hj, if_pos hj, List.nil_append]
      apply List.map_congr_left
      intro i hi
      rw [(hidx i j (List.mem_range.mp hi) hj).1]
    · rw [if_neg hj, if_neg hj]
  refine ⟨hfr, hle, hidx, _, hplay ddb_api hrd, rfl, ?_, ?_, ?_, ?_⟩
  · intro j hj
    show (copy_frames _ _ _ _ _ j).length = _
    rw [hout ddb_api j, if_pos hj]
    simp
  · intro j hj
    show copy_frames _ _ _ _ _ j = _
    rw [hout ddb_api j, if_neg (Nat.not_lt.mpr hj)]
  · intro i j hi hj
    show (copy_frames _ _ _ _ _ j)[i]? = _
    rw [hout ddb_api j, if_pos hj]
    simp [hi]
  · intro other hvol hret hagree
    refine ⟨_, hplay other hret, ?_⟩
    intro j
    show copy_frames _ _ _ _ _ j = copy_frames _ _ _ _ _ j
    rw [hout other j, hout ddb_api j]
    by_cases hj : j < w.ddb_client.fmt.channels
    · rw [if_pos hj, if_pos hj]
      apply List.map_congr_left
      intro i hi
      have hlt := (hidx i j (List.mem_range.mp hi) hj).2
      rw [(hidx i j (List.mem_range.mp hi) hj).1] at hlt
      rw [hagree _ hlt, hvol]
    · rw [if_neg hj, if_neg hj]

/-- Witness of `short_read_in_bounds`: two channels, a period of 4 frames, a
read of 20 bytes (two whole frames and half of a third). -/
theorem short_read_in_bounds_witness :
    (20 * 8 < UINT_SIZE ∧
      20 ≤ buf_size 4 (connected_world OUTPUT_STATE_PLAYING 2).ddb_client.fmt) ∧
    framesread 20 (connected_world OUTPUT_STATE_PLAYING 2).ddb_client.fmt = 20 / (2 * 4) ∧
    ∃ p, jack_proc_callback (ramp_host 20 5) 4 (connected_world OUTPUT_STATE_PLAYING 2) = some p ∧
      p.ret = 0 ∧
      ∀ j, j < 2 → (p.out j).length
        = framesread 20 (connected_world OUTPUT_STATE_PLAYING 2).ddb_client.fmt := by
  have h := short_read_in_bounds (ramp_host 20 5) 4 20 (connected_world OUTPUT_STATE_PLAYING 2)
    rfl rfl (by decide) (by decide) rfl (by decide) (by decide) rfl
  obtain ⟨h1, -, -, p, hp, hret, hlen, -⟩ := h
  exact ⟨⟨by decide, by decide⟩, h1, p, hp, hret, hlen⟩

/-- C10 as stated fails for a channel count above 65535: with 65536 channels,
a period of one frame and a read of one whole frame (262144 bytes, within the
capacity, no product reaching `2^32`) the callback never gets out of the
`unsigned short` port loop, so no sample is stored and nothing is returned. -/
theorem short_read_fails_above_ushort :
    (1 * 65536 * 4 < UINT_SIZE ∧ 262144 * 8 < UINT_SIZE ∧ 262144 ≤ 1 * 65536 * 4) ∧
    ¬ ∃ p, jack_proc_callback (ramp_host 262144 1) 1
      (connected_world OUTPUT_STATE_PLAYING 65536) = some p := by
  refine ⟨by decide, ?_⟩
  have h : jack_proc_callback (ramp_host 262144 1) 1
      (connected_world OUTPUT_STATE_PLAYING 65536) = none := by
    unfold jack_proc_callback
    simp [connected_world, ddb_client0, USHRT_MAX, ramp_host, buf_size, to_unsigned, INT_MAX]
  simp [h]

/-! ## `ddb_jack_setformat` -/

/-- C4 (setformat is a no-op on an unchanged channel count).  For every world,
every outcome of the server calls and every requested format whose channel
count equals the stored one, whatever its other fields, `ddb_jack_setformat`
returns 0 and the world is the same: no call is recorded (neither
`ddb_playback_stop`, `jack_client_close` nor `ddb_jack_init`), and the client
record with the stored format is unchanged. -/
theorem setformat_same_channels_is_noop (srv : JackServer) (close_ret : Int)
    (fmt : ddb_waveformat_t) (w : World)
    (h : fmt.channels = w.ddb_client.fmt.channels) :
    ddb_jack_setformat srv close_ret fmt w = some (0, w) := by
  unfold ddb_jack_setformat
  rw [if_pos h.symm]

/-- Witness of `setformat_same_channels_is_noop`: the playing two-channel client
and a two-channel request that differs in every other field. -/
theorem setformat_same_channels_is_noop_witness :
    other_stereo_fmt.channels = world_playing.ddb_client.fmt.channels ∧
    other_stereo_fmt ≠ world_playing.ddb_client.fmt ∧
    ddb_jack_setformat dead_server 1 other_stereo_fmt world_playing = some (0, world_playing) :=
  ⟨by decide, by decide,
    setformat_same_channels_is_noop dead_server 1 other_stereo_fmt world_playing (by decide)⟩

/-- When the `active` flag is clear and the channel count differs,
`ddb_jack_setformat` stores the new count and goes straight to `ddb_jack_init`;
it returns 0 exactly when `ddb_jack_init` returns non-zero. -/
theorem setformat_inactive (srv : JackServer) (close_ret : Int) (fmt : ddb_waveformat_t)
    (w : World) (hch : w.ddb_client.fmt.channels ≠ fmt.channels)
    (hact : w.ddb_client.active = false) :
    ddb_jack_setformat srv close_ret fmt w
      = (ddb_jack_init srv
          (w.set (fun c => { c with fmt := { c.fmt with channels := fmt.channels } }))).map
        (fun r => (if r.1 = 0 then ENOEXEC else 0, r.2)) := by
  unfold ddb_jack_setformat setformat_rebuild
  rw [if_neg hch]
  simp only [set_ddb_client, hact, Bool.false_eq_true, if_false]
  cases ddb_jack_init srv
      (w.set (fun c => { c with fmt := { c.fmt with channels := fmt.channels } })) with
  | none => rfl
  | some r =>
    by_cases h0 : r.1 = 0
    · simp [h0]
    · simp [h0]

/-- C5, the code at the failing inputs.  From plugin load, a request for one
channel: on the server where every call succeeds the rebuild `ddb_jack_init`
returns 0 and `ddb_jack_setformat` returns `ENOEXEC`; on the unreachable server
`ddb_jack_init` returns `EPERM` and `ddb_jack_setformat` returns 0. -/
theorem setformat_result_is_inverted :
    ((ddb_jack_init good_server
        (world0.set (fun c => { c with fmt := { c.fmt with channels := 1 } }))).map Prod.fst
        = some 0 ∧
      (ddb_jack_setformat good_server 0 mono_fmt world0).map Prod.fst = some ENOEXEC) ∧
    ((ddb_jack_init dead_server
        (world0.set (fun c => { c with fmt := { c.fmt with channels := 1 } }))).map Prod.fst
        = some EPERM ∧
      (ddb_jack_setformat dead_server 0 mono_fmt world0).map Prod.fst = some 0) := by
  decide

/-! ## What the blocks of `ddb_jack_init` leave unchanged -/

theorem register_ports_frame (srv : JackServer) (k i : Nat) (w : World) :
    (register_ports srv k i w).2.ddb_client
      = { w.ddb_client with ports := (register_ports srv k i w).2.ddb_client.ports } := by
  induction k generalizing i w with
  | zero => rfl
  | succ k ih =>
    unfold register_ports
    cases hp : srv.port_register i with
    | none => rfl
    | some port =>
      simp only []
      rw [ih]
      rfl

theorem connect_ports_frame (srv : JackServer) (k i : Nat) (w : World) :
    (connect_ports srv k i w).2.ddb_client = w.ddb_client := by
  induction k generalizing i w with
  | zero => rfl
  | succ k ih =>
    unfold connect_ports
    by_cases h : srv.connect i ≠ 0 ∧ srv.connect i ≠ EEXIST
    · rw [if_pos h]
      rfl
    · rw [if_neg h, ih]
      rfl

theorem free_active (close_ret : Int) (w : World) :
    (ddb_jack_free close_ret w).2.ddb_client.active = w.ddb_client.active := by
  unfold ddb_jack_free
  cases ha : w.ddb_client.autostart <;> cases hcl : w.ddb_client.client <;>
    by_cases hr : close_ret = 0 <;> simp [ha, hcl, hr, ddb_playback_stop]

theorem init_autoconnect_active (srv : JackServer) (w : World) :
    (init_autoconnect srv w).2.ddb_client.active = w.ddb_client.active := by
  unfold init_autoconnect
  cases hac : w.ddb_client.autoconnect with
  | false => simp
  | true =>
    cases hg : srv.get_ports with
    | false => simp
    | true =>
      cases hr : (connect_ports srv (w.call Call.jack_get_ports).ddb_client.fmt.channels 0
        (w.call Call.jack_get_ports)).1 with
      | false =>
        simp only [hr, Bool.not_true, Bool.not_false, if_true, if_false, Bool.false_eq_true]
        rw [free_active, connect_ports_frame]
        rfl
      | true =>
        simp only [hr, Bool.not_true, Bool.not_false, if_true, if_false, Bool.false_eq_true]
        rw [connect_ports_frame]
        rfl

theorem init_active (srv : JackServer) (w : World) (r : Nat × World)
    (h : ddb_jack_init srv w = some r) : r.2.ddb_client.active = w.ddb_client.active := by
  unfold ddb_jack_init at h
  simp only [] at h
  split at h
  · cases h
    rw [free_active]
    rfl
  · split at h
    · cases h
      rw [free_active]
      rfl
    · split at h
      · cases h
        rw [free_active]
        rfl
      · split at h
        · cases h
          rw [free_active, register_ports_frame]
          rfl
        · split at h
          · cases h
          · split at h
            · cases h
              rw [free_active]
              show (register_ports _ _ _ _).2.ddb_client.active = _
              rw [register_ports_frame]
              rfl
            · cases h
              rw [init_autoconnect_active]
              show (register_ports _ _ _ _).2.ddb_client.active = _
              rw [register_ports_frame]
              rfl

/-! ## Calls recorded by the blocks of `ddb_jack_init` -/

theorem count_call (w : World) (c x : Call) :
    (w.call c).calls.count x = w.calls.count x + if c = x then 1 else 0 := by
  rw [call_calls, List.count_append]
  by_cases h : c = x
  · subst h
    simp
  · simp [h, List.count_singleton]

theorem register_ports_count (srv : JackServer) (x : Call)
    (hx : ∀ i, x ≠ Call.jack_port_register i) (k i : Nat) (w : World) :
    (register_ports srv k i w).2.calls.count x = w.calls.count x := by
  induction k generalizing i w with
  | zero => rfl
  | succ k ih =>
    unfold register_ports
    have h1 : ((w.call (Call.jack_port_register i)).set
        (fun c => { c with ports := fun y => if y = i then srv.port_register i else c.ports y })
        ).calls.count x = w.calls.count x := by
      rw [set_calls, count_call, if_neg (fun h => hx i h.symm), Nat.add_zero]
    cases hp : srv.port_register i with
    | none => exact h1
    | some port =>
      simp only []
      rw [ih, set_calls, count_call, if_neg (fun h => hx i h.symm), Nat.add_zero]

theorem connect_ports_count (srv : JackServer) (x : Call)
    (hx : ∀ i, x ≠ Call.jack_connect i) (k i : Nat) (w : World) :
    (connect_ports srv k i w).2.calls.count x = w.calls.count x := by
  induction k generalizing i w with
  | zero => rfl
  | succ k ih =>
    unfold connect_ports
    have h1 : (w.call (Call.jack_connect i)).calls.count x = w.calls.count x := by
      rw [count_call, if_neg (fun h => hx i h.symm), Nat.add_zero]
    by_cases h : srv.connect i ≠ 0 ∧ srv.connect i ≠ EEXIST
    · rw [if_pos h]
      exact h1
    · rw [if_neg h, ih, h1]

theorem init_open_facts (srv : JackServer) (w : World) :
    (init_open srv w).ddb_client.connect = true ∧
    (init_open srv w).ddb_client.client = srv.client_open.1 ∧
    (init_open srv w).ddb_client.fmt = w.ddb_client.fmt ∧
    (init_open srv w).calls.count Call.ddb_jack_init = w.calls.count Call.ddb_jack_init + 1 ∧
    (init_open srv w).calls.count (Call.streamer_reset 1)
      = w.calls.count (Call.streamer_reset 1) := by
  refine ⟨rfl, rfl, rfl, ?_, ?_⟩
  · simp [init_open, List.count_append, List.count_singleton]
  · simp [init_open, List.count_append, List.count_singleton]

theorem EPERM_ne_zero : EPERM ≠ 0 := by decide

theorem ESRCH_ne_zero : ESRCH ≠ 0 := by decide

theorem ENXIO_ne_zero : ENXIO ≠ 0 := by decide

theorem EACCES_ne_zero : EACCES ≠ 0 := by decide

theorem init_setup_facts (srv : JackServer) (w : World) :
    ((((init_rate srv (init_open srv w)).call Call.jack_set_process_callback).call
        Call.jack_set_sample_rate_callback).call Call.jack_on_shutdown).calls.count
          Call.ddb_jack_init = w.calls.count Call.ddb_jack_init + 1 ∧
    ((((init_rate srv (init_open srv w)).call Call.jack_set_process_callback).call
        Call.jack_set_sample_rate_callback).call Call.jack_on_shutdown).calls.count
          (Call.streamer_reset 1) = w.calls.count (Call.streamer_reset 1) := by
  constructor
  · simp [init_rate, init_open, List.count_append, List.count_singleton]
  · simp [init_rate, init_open, List.count_append, List.count_singleton]

/-- Every returning run of `ddb_jack_init` ends in one of three ways: success;
a failure followed by the rollback `plugin.free ()`; or the failure right after
`jack_get_ports` gave `NULL`, which returns without the rollback. -/
theorem init_shape (srv : JackServer) (w : World) (r : Nat × World)
    (h : ddb_jack_init srv w = some r) :
    ∃ v : World,
      v.ddb_client.connect = true ∧ v.ddb_client.client = srv.client_open.1 ∧
      v.calls.count Call.ddb_jack_init = w.calls.count Call.ddb_jack_init + 1 ∧
      v.calls.count (Call.streamer_reset 1) = w.calls.count (Call.streamer_reset 1) ∧
      ((r.1 = 0 ∧ r.2 = v) ∨
       (r.1 ≠ 0 ∧ r.2 = (ddb_jack_free srv.client_close v).2) ∨
       (r.1 = ENXIO ∧ r.2 = v ∧ v.calls.getLast? = some Call.jack_get_ports)) := by
  obtain ⟨o1, o2, -, o4, o5⟩ := init_open_facts srv w
  obtain ⟨c4, c5⟩ := init_setup_facts srv w
  unfold ddb_jack_init at h
  simp only [] at h
  split at h
  · cases h
    exact ⟨init_open srv w, o1, o2, o4, o5, Or.inr (Or.inl ⟨EPERM_ne_zero, rfl⟩)⟩
  · split at h
    · cases h
      refine ⟨(init_rate srv (init_open srv w)).call Call.jack_set_process_callback, o1, o2,
        ?_, ?_, Or.inr (Or.inl ⟨ESRCH_ne_zero, rfl⟩)⟩
      · simp [init_rate, init_open, List.count_append, List.count_singleton]
      · simp [init_rate, init_open, List.count_append, List.count_singleton]
    · split at h
      · cases h
        refine ⟨((init_rate srv (init_open srv w)).call Call.jack_set_process_callback).call
          Call.jack_set_sample_rate_callback, o1, o2,
          ?_, ?_, Or.inr (Or.inl ⟨ESRCH_ne_zero, rfl⟩)⟩
        · simp [init_rate, init_open, List.count_append, List.count_singleton]
        · simp [init_rate, init_open, List.count_append, List.count_singleton]
      · have q1 : ((((init_rate srv (init_open srv w)).call Call.jack_set_process_callback).call
            Call.jack_set_sample_rate_callback).call Call.jack_on_shutdown).ddb_client.connect
            = true := o1
        have q2 : ((((init_rate srv (init_open srv w)).call Call.jack_set_process_callback).call
            Call.jack_set_sample_rate_callback).call Call.jack_on_shutdown).ddb_client.client
            = srv.client_open.1 := o2
        generalize (((init_rate srv (init_open srv w)).call Call.jack_set_process_callback).call
            Call.jack_set_sample_rate_callback).call Call.jack_on_shutdown = w4 at h c4 c5 q1 q2
        have r1 := register_ports_frame srv
          (min w4.ddb_client.fmt.channels (USHRT_MAX + 1)) 0 w4
        have r4 := register_ports_count srv Call.ddb_jack_init
          (by intro i; exact Call.noConfusion)
          (min w4.ddb_client.fmt.channels (USHRT_MAX + 1)) 0 w4
        have r5 := register_ports_count srv (Call.streamer_reset 1)
          (by intro i; exact Call.noConfusion)
          (min w4.ddb_client.fmt.channels (USHRT_MAX + 1)) 0 w4
        rw [c4] at r4
        rw [c5] at r5
        generalize register_ports srv
          (min w4.ddb_client.fmt.channels (USHRT_MAX + 1)) 0 w4 = reg at h r1 r4 r5
        have p1 : reg.2.ddb_client.connect = true := by rw [r1]; exact q1
        have p2 : reg.2.ddb_client.client = srv.client_open.1 := by rw [r1]; exact q2
        split at h
        · cases h
          exact ⟨reg.2, p1, p2, r4, r5, Or.inr (Or.inl ⟨ENXIO_ne_zero, rfl⟩)⟩
        · split at h
          · cases h
          · have a4 : (reg.2.call Call.jack_activate).calls.count Call.ddb_jack_init
                = w.calls.count Call.ddb_jack_init + 1 := by
              rw [count_call, r4]; simp
            have a5 : (reg.2.call Call.jack_activate).calls.count (Call.streamer_reset 1)
                = w.calls.count (Call.streamer_reset 1) := by
              rw [count_call, r5]; simp
            have a1 : (reg.2.call Call.jack_activate).ddb_client.connect = true := p1
            have a2 : (reg.2.call Call.jack_activate).ddb_client.client = srv.client_open.1 := p2
            generalize reg.2.call Call.jack_activate = act at h a1 a2 a4 a5
            split at h
            · cases h
              exact ⟨act, a1, a2, a4, a5, Or.inr (Or.inl ⟨EACCES_ne_zero, rfl⟩)⟩
            · cases h
              unfold init_autoconnect
              cases hac : act.ddb_client.autoconnect with
              | false => exact ⟨act, a1, a2, a4, a5, Or.inl ⟨by simp, by simp⟩⟩
              | true =>
                have g4 : (act.call Call.jack_get_ports).calls.count Call.ddb_jack_init
                    = w.calls.count Call.ddb_jack_init + 1 := by
                  rw [count_call, a4]; simp
                have g5 : (act.call Call.jack_get_ports).calls.count (Call.streamer_reset 1)
                    = w.calls.count (Call.streamer_reset 1) := by
                  rw [count_call, a5]; simp
                cases hg : srv.get_ports with
                | false =>
                  refine ⟨act.call Call.jack_get_ports, a1, a2, g4, g5,
                    Or.inr (Or.inr ⟨by simp, by simp, by simp⟩)⟩
                | true =>
                  have k1 := connect_ports_frame srv act.ddb_client.fmt.channels 0
                    (act.call Call.jack_get_ports)
                  have k4 := connect_ports_count srv Call.ddb_jack_init
                    (by intro i; exact Call.noConfusion) act.ddb_client.fmt.channels 0
                    (act.call Call.jack_get_ports)
                  have k5 := connect_ports_count srv (Call.streamer_reset 1)
                    (by intro i; exact Call.noConfusion) act.ddb_client.fmt.channels 0
                    (act.call Call.jack_get_ports)
                  rw [g4] at k4
                  rw [g5] at k5
                  refine ⟨(connect_ports srv act.ddb_client.fmt.channels 0
                    (act.call Call.jack_get_ports)).2, by rw [k1]; exact a1,
                    by rw [k1]; exact a2, k4, k5, ?_⟩
                  cases hc : (connect_ports srv act.ddb_client.fmt.channels 0
                    (act.call Call.jack_get_ports)).1 with
                  | false => exact Or.inr (Or.inl ⟨by simp [hc, EACCES], by simp [hc]⟩)
                  | true => exact Or.inl ⟨by simp [hc], by simp [hc]⟩

/-- C8, amended (connect rollback).  For every starting world and every outcome
of the server calls, whenever `ddb_jack_init` returns a non-zero failure and
the last call it made is not `jack_get_ports` (that is, for every failure other
than the return right after no physical playback port was found), the connect
flag is false afterwards, and the connection handle is empty provided
`jack_client_close` returned 0 or `jack_client_open` had given no handle. -/
theorem init_failure_rolls_back (srv : JackServer) (w : World) (r : Nat × World)
    (h : ddb_jack_init srv w = some r) (hr : r.1 ≠ 0)
    (hlast : r.2.calls.getLast? ≠ some Call.jack_get_ports) :
    r.2.ddb_client.connect = false ∧
    (srv.client_close = 0 ∨ srv.client_open.1 = none → r.2.ddb_client.client = none) := by
  obtain ⟨v, -, v2, -, -, hcase⟩ := init_shape srv w r h
  rcases hcase with ⟨h0, -⟩ | ⟨-, hfree⟩ | ⟨-, hv, hl⟩
  · exact absurd h0 hr
  · rw [hfree]
    refine ⟨free_connect _ _, ?_⟩
    intro hor
    rcases hor with hclose | hnone
    · exact free_client _ _ hclose
    · exact free_client_none _ _ (by rw [v2]; exact hnone)
  · rw [hv] at hlast
    exact absurd hl hlast

/-- Witness of `init_failure_rolls_back`: from plugin load, the unreachable server. -/
theorem init_failure_rolls_back_witness :
    ddb_jack_init dead_server world0
      = some ((ddb_jack_init dead_server world0).getD (0, world0)) ∧
    ((ddb_jack_init dead_server world0).getD (0, world0)).1 = EPERM ∧
    ((ddb_jack_init dead_server world0).getD (0, world0)).2.ddb_client.connect = false ∧
    (dead_server.client_close = 0 ∨ dead_server.client_open.1 = none →
      ((ddb_jack_init dead_server world0).getD (0, world0)).2.ddb_client.client = none) :=
  ⟨rfl, by decide,
    init_failure_rolls_back dead_server world0
      ((ddb_jack_init dead_server world0).getD (0, world0)) rfl (by decide) (by decide)⟩

/-- C8 as stated fails in two ways, from plugin load.  (a) `jack_activate`
fails and the `jack_client_close` of the rollback fails as well:
`ddb_jack_init` returns `EACCES` and the handle is still there.  (b) No
physical playback port: `ddb_jack_init` returns `ENXIO` without calling
`plugin.free ()`, the connect flag is still set and the handle is still there. -/
theorem init_failure_not_always_clean :
    (∃ r, ddb_jack_init stuck_server world0 = some r ∧ r.1 = EACCES ∧
      r.2.ddb_client.connect = false ∧ r.2.ddb_client.client = some 7) ∧
    (∃ r, ddb_jack_init no_playback_server world0 = some r ∧ r.1 = ENXIO ∧
      r.2.ddb_client.connect = true ∧ r.2.ddb_client.client = some 7 ∧
      r.2.calls.count Call.ddb_jack_free = 0) :=
  ⟨⟨(ddb_jack_init stuck_server world0).getD (0, world0), rfl, by decide, by decide, by decide⟩,
   ⟨(ddb_jack_init no_playback_server world0).getD (0, world0), rfl, by decide, by decide,
    by decide, by decide⟩⟩

/-! ## `ddb_jack_setformat` on reachable states -/

theorem pause_active (w : World) :
    (ddb_playback_pause w).2.ddb_client.active = w.ddb_client.active := by
  unfold ddb_playback_pause
  split <;> rfl

theorem play_active (srv : JackServer) (close_ret : Int) (w : World) (r : Nat × World)
    (h : ddb_playback_play srv close_ret w = some r) :
    r.2.ddb_client.active = w.ddb_client.active := by
  unfold ddb_playback_play at h
  split at h
  · cases hi : ddb_jack_init srv w with
    | none => rw [hi] at h; cases h
    | some r0 =>
      rw [hi] at h
      simp only [] at h
      have ha := init_active srv w r0 hi
      split at h
      · cases h
        rw [free_active]
        exact ha
      · cases h
        exact ha
  · cases h
    rfl

/-- The `active` flag is never set: it is clear in every reachable state. -/
theorem reachable_active_clear (w : World) (h : Reachable w) : w.ddb_client.active = false := by
  induction h with
  | load => rfl
  | init srv w r _ hi ih => rw [init_active srv w r hi]; exact ih
  | play srv close_ret w r _ hp ih => rw [play_active srv close_ret w r hp]; exact ih
  | pause w _ ih => rw [pause_active]; exact ih
  | stop w _ ih => exact ih
  | setformat srv close_ret fmt w r _ hs ih =>
    by_cases hch : w.ddb_client.fmt.channels = fmt.channels
    · unfold ddb_jack_setformat at hs
      rw [if_pos hch] at hs
      cases hs
      exact ih
    · rw [setformat_inactive srv close_ret fmt w hch ih] at hs
      cases hi : ddb_jack_init srv
          (w.set (fun c => { c with fmt := { c.fmt with channels := fmt.channels } })) with
      | none => rw [hi] at hs; cases hs
      | some r0 =>
        rw [hi] at hs
        cases hs
        exact (init_active srv _ r0 hi).trans ih

theorem init_autoconnect_connected (srv : JackServer) (w : World)
    (hc : (init_autoconnect srv w).2.ddb_client.connect = true) :
    (init_autoconnect srv w).2.ddb_client.fmt = w.ddb_client.fmt := by
  unfold init_autoconnect at hc ⊢
  cases hac : w.ddb_client.autoconnect with
  | false => simp
  | true =>
    cases hg : srv.get_ports with
    | false => simp
    | true =>
      cases hr : (connect_ports srv (w.call Call.jack_get_ports).ddb_client.fmt.channels 0
        (w.call Call.jack_get_ports)).1 with
      | false =>
        simp only [hac, hg, hr, Bool.not_true, Bool.not_false, if_true, if_false,
          Bool.false_eq_true] at hc
        rw [free_connect] at hc
        cases hc
      | true =>
        simp only [hr, Bool.not_true, Bool.not_false, if_true, if_false, Bool.false_eq_true]
        rw [connect_ports_frame]
        rfl

/-- When `ddb_jack_init` returns with the connect flag set, the port loop has
been left by its condition: the channel count is at most 65535. -/
theorem init_connected_channels (srv : JackServer) (w : World) (r : Nat × World)
    (h : ddb_jack_init srv w = some r) (hc : r.2.ddb_client.connect = true) :
    r.2.ddb_client.fmt.channels ≤ USHRT_MAX := by
  unfold ddb_jack_init at h
  simp only [] at h
  split at h
  · cases h
    rw [free_connect] at hc
    cases hc
  · split at h
    · cases h
      rw [free_connect] at hc
      cases hc
    · split at h
      · cases h
        rw [free_connect] at hc
        cases hc
      · split at h
        · cases h
          rw [free_connect] at hc
          cases hc
        · split at h
          · cases h
          · rename_i hU
            split at h
            · cases h
              rw [free_connect] at hc
              cases hc
            · cases h
              rw [init_autoconnect_connected srv _ hc]
              show (register_ports _ _ _ _).2.ddb_client.fmt.channels ≤ _
              rw [register_ports_frame]
              exact Nat.not_lt.mp hU

/-- In every reachable state with the connect flag set the channel count is at
most 65535. -/
theorem reachable_connected_channels (w : World) (h : Reachable w)
    (hc : w.ddb_client.connect = true) : w.ddb_client.fmt.channels ≤ USHRT_MAX := by
  induction h with
  | load => cases hc
  | init srv w r _ hi _ => exact init_connected_channels srv w r hi hc
  | play srv close_ret w r _ hp ih =>
    unfold ddb_playback_play at hp
    split at hp
    · cases hi : ddb_jack_init srv w with
      | none => rw [hi] at hp; cases hp
      | some r0 =>
        rw [hi] at hp
        simp only [] at hp
        split at hp
        · cases hp
          rw [free_connect] at hc
          cases hc
        · cases hp
          exact init_connected_channels srv w r0 hi hc
    · rename_i hcon
      cases hp
      have hw : w.ddb_client.connect = true := by simpa using hcon
      exact ih hw
  | pause w _ ih =>
    unfold ddb_playback_pause at hc ⊢
    split
    · rename_i hst
      rw [if_pos hst] at hc
      exact ih hc
    · rename_i hst
      rw [if_neg hst] at hc
      exact ih hc
  | stop w _ ih => exact ih hc
  | setformat srv close_ret fmt w r hw hs ih =>
    by_cases hch : w.ddb_client.fmt.channels = fmt.channels
    · unfold ddb_jack_setformat at hs
      rw [if_pos hch] at hs
      cases hs
      exact ih hc
    · rw [setformat_inactive srv close_ret fmt w hch (reachable_active_clear w hw)] at hs
      cases hi : ddb_jack_init srv
          (w.set (fun c => { c with fmt := { c.fmt with channels := fmt.channels } })) with
      | none => rw [hi] at hs; cases hs
      | some r0 =>
        rw [hi] at hs
        cases hs
        exact init_connected_channels srv _ r0 hi hc

/-- In every reachable state a request with a different channel count makes
`ddb_jack_setformat` store the count and call `ddb_jack_init` at once: the
branch that stops playback and closes the connection is never taken. -/
theorem reachable_setformat_skips_teardown (srv : JackServer) (close_ret : Int)
    (fmt : ddb_waveformat_t) (w : World) (h : Reachable w)
    (hch : w.ddb_client.fmt.channels ≠ fmt.channels) :
    ddb_jack_setformat srv close_ret fmt w
      = (ddb_jack_init srv
          (w.set (fun c => { c with fmt := { c.fmt with channels := fmt.channels } }))).map
        (fun r => (if r.1 = 0 then ENOEXEC else 0, r.2)) :=
  setformat_inactive srv close_ret fmt w hch (reachable_active_clear w h)

/-- C6, the code at the failing input.  The state after `plugin.init ()` and
`plugin.play ()` on the good server is reachable, connected (handle 7) and
Playing.  A request for one channel then returns with the playback state still
Playing, with no `ddb_playback_stop` and no `jack_client_close` recorded at all
(the first connection is never closed), with `jack_client_open` recorded a
second time, and with the stored channel count 1. -/
theorem setformat_does_not_tear_down :
    Reachable world_playing ∧
    world_playing.ddb_client.connect = true ∧
    world_playing.ddb_client.client = some 7 ∧
    world_playing.ddb_client.state = OUTPUT_STATE_PLAYING ∧
    world_playing.ddb_client.fmt.channels = 2 ∧
    ∃ r, ddb_jack_setformat good_server 0 mono_fmt world_playing = some r ∧
      r.2.ddb_client.state = OUTPUT_STATE_PLAYING ∧
      r.2.calls.count Call.ddb_playback_stop = 0 ∧
      r.2.calls.count Call.jack_client_close = 0 ∧
      r.2.calls.count (Call.jack_client_open 0) = 2 ∧
      r.2.ddb_client.fmt.channels = 1 := by
  refine ⟨?_, by decide, by decide, by decide, by decide,
    (ddb_jack_setformat good_server 0 mono_fmt world_playing).getD (0, world0), rfl,
    by decide, by decide, by decide, by decide, by decide⟩
  exact Reachable.play good_server 0 world_connected
    ((ddb_playback_play good_server 0 world_connected).getD (0, world0))
    (Reachable.init good_server world0 ((ddb_jack_init good_server world0).getD (0, world0))
      Reachable.load rfl) rfl

/-! ## `jack_shutdown_callback` -/

end DdbJack
